import Mathlib

/-!
Shallow embedding of `src/index.rs` of `crates-index-diff-rs`.

The crate wraps a `git2::Repository` of the crates.io index and extracts
newly added JSON records from the patch rendering of a tree-to-tree diff.
The embedded version-control engine (git2) is external to the repository;
it is modelled here as explicit state (`Repository`) whose diff/patch
capability is an abstract function field, following the interface
boundaries described in the specification (§6).

Machine-level details that no claim depends on (packfile layout, actual
SHA-1 hashing) are abstracted: an object id (`Oid`) is its hex string.
-/

/-- Object ids (`git2::Oid`). `Oid::from_str` on a valid hex constant always
succeeds, so ids are modelled directly by their hex strings. -/
abbrev Oid := String

/-- `static INDEX_GIT_URL` from `src/index.rs`. -/
def INDEX_GIT_URL : String := "https://github.com/rust-lang/crates.io-index"

/-- `static EMPTY_TREE_HASH` from `src/index.rs`: the well-known empty-tree
sentinel id. -/
def EMPTY_TREE_HASH : Oid := "4b825dc642cb6eb9a060e54bf8d69288fbee4904"

/-- `static LINE_ADDED_INDICATOR` from `src/index.rs`. -/
def LINE_ADDED_INDICATOR : Char := '+'

/-- The subset of `git2::ErrorClass` values the code distinguishes
(`ErrorClass::Repository` decides whether a clone is attempted); the other
constructors stand for the remaining classes. -/
inductive ErrorClass
  | noneClass
  | repository
  | reference
  | config
  | odb
  | os
  | net
  | invalid
deriving DecidableEq

/-- `git2::Error`: a message plus an error class. -/
structure GitError where
  msg : String
  cls : ErrorClass
deriving DecidableEq

/-- `git2::Error::from_str`: a plain error carrying no specific class. -/
def GitError.fromStr (s : String) : GitError :=
  { msg := s, cls := ErrorClass.noneClass }

/-- `git2::ObjectType` (the kinds relevant to this code). -/
inductive ObjectType
  | commit
  | tree
  | blob
  | tag
deriving DecidableEq

/-- A resolved `git2::Object`. A commit object carries the id of the tree it
points to (`Commit::tree_id`), which is what `into_tree` uses. -/
inductive GitObject
  | commit (id : Oid) (treeId : Oid)
  | tree (id : Oid)
  | blob (id : Oid)
  | tag (id : Oid)
deriving DecidableEq

/-- `Object::id`. -/
def GitObject.id : GitObject → Oid
  | GitObject.commit i _ => i
  | GitObject.tree i => i
  | GitObject.blob i => i
  | GitObject.tag i => i

/-- `Object::kind`. -/
def GitObject.kind : GitObject → Option ObjectType
  | GitObject.commit _ _ => some ObjectType.commit
  | GitObject.tree _ => some ObjectType.tree
  | GitObject.blob _ => some ObjectType.blob
  | GitObject.tag _ => some ObjectType.tag

/-- A `git2::Tree`, reduced to its id (the only part the diff consumes). -/
structure GitTree where
  id : Oid
deriving DecidableEq

/-- `git2::Delta`: the status tag of a per-path delta entry. -/
inductive DeltaStatus
  | unmodified
  | added
  | deleted
  | modified
  | renamed
  | copied
  | ignored
  | untracked
  | typechange
  | unreadable
  | conflicted
deriving DecidableEq

/-- One rendered patch line as delivered to the `Diff::print` callback:
the owning delta entry's status, the line's origin marker and its raw
content. The record schema is opaque to this core (spec §3), so content is
kept as the raw text handed to the parser. -/
structure PatchLine where
  status : DeltaStatus
  origin : Char
  content : String
deriving DecidableEq

/-- Fully-qualified ref names, split by namespace: the engine's fetch with
refspec `refs/heads/*:refs/remotes/origin/*` only ever writes names of the
form `refs/remotes/origin/<branch>`, modelled by the `remoteTracking`
constructor; every other ref name (for example
`refs/heads/crates-index-diff_last-seen`) is `plain`. -/
inductive RefName
  | plain (name : String)
  | remoteTracking (branch : String)
deriving DecidableEq

/-- Whether a ref name lies in the remote-tracking namespace the fetch
refspec writes to. -/
def RefName.isRemoteTracking : RefName → Bool
  | RefName.plain _ => false
  | RefName.remoteTracking _ => true

/-- `static LAST_SEEN_REFNAME` from `src/index.rs`. -/
def LAST_SEEN_REFNAME : RefName :=
  RefName.plain "refs/heads/crates-index-diff_last-seen"

/-- The ref name `refs/remotes/origin/master` resolved in
`peek_changes_with_options`. -/
def originMaster : RefName := RefName.remoteTracking "master"

/-- A `git2::Reference` is either direct (carries an object id) or symbolic
(points at another ref name). -/
inductive RefTarget
  | direct (oid : Oid)
  | symbolic (refname : RefName)
deriving DecidableEq

/-- `Reference::target`: only a direct reference has an id. -/
def RefTarget.target : RefTarget → Option Oid
  | RefTarget.direct oid => some oid
  | RefTarget.symbolic _ => none

/-- What a successful fetch delivers: the fetched branch tips (installed
under `refs/remotes/origin/`) and the objects/trees of the received pack. -/
structure FetchData where
  branches : List (String × Oid)
  newObjects : List GitObject
  newTrees : List Oid

/-- The remote named `origin`: its configured URL (`Remote::url`, which can
be undecodable, hence `Option`) and the outcome of fetching from it. -/
structure OriginRemote where
  url : Option String
  fetchOutcome : Except GitError FetchData

/-- The engine state a `git2::Repository` exposes to this code: the ref
store, the object database (objects and, separately, the set of tree ids
`find_tree` accepts), the `origin` remote if configured, and the combined
tree-to-tree diff plus patch rendering capability
(`diff_tree_to_tree` followed by `Diff::print`), which is external and so
kept abstract as a function producing the rendered line sequence in the
engine's enumeration order (path order, then line order within a path). -/
structure Repository where
  refs : List (RefName × RefTarget)
  objects : List GitObject
  trees : List Oid
  origin : Option OriginRemote
  diffPatch : Oid → Oid → Except GitError (List PatchLine)

/-- Ref-store lookup by exact name. -/
def Repository.lookupRef (r : Repository) (name : RefName) : Option RefTarget :=
  match r.refs.find? (fun p => p.1 == name) with
  | some p => some p.2
  | none => none

/-- `Repository::find_reference`. -/
def Repository.find_reference (r : Repository) (name : RefName) :
    Except GitError RefTarget :=
  match r.lookupRef name with
  | some rt => Except.ok rt
  | none => Except.error (GitError.mk "reference not found" ErrorClass.reference)

/-- `Repository::find_tree`: succeeds exactly when the id names a tree in
the object database. -/
def Repository.find_tree (r : Repository) (oid : Oid) : Except GitError GitTree :=
  if r.trees.contains oid then Except.ok (GitTree.mk oid)
  else Except.error (GitError.mk "could not find tree" ErrorClass.odb)

/-- `Repository::find_object`. -/
def Repository.find_object (r : Repository) (oid : Oid) : Except GitError GitObject :=
  match r.objects.find? (fun o => o.id == oid) with
  | some o => Except.ok o
  | none => Except.error (GitError.mk "object not found" ErrorClass.odb)

/-- `Repository::refname_to_id`: resolve a ref name to an id, following one
symbolic hop. -/
def Repository.refname_to_id (r : Repository) (name : RefName) :
    Except GitError Oid :=
  match r.lookupRef name with
  | some (RefTarget.direct oid) => Except.ok oid
  | some (RefTarget.symbolic n2) =>
    match r.lookupRef n2 with
    | some (RefTarget.direct oid) => Except.ok oid
    | _ => Except.error (GitError.mk "cannot resolve reference" ErrorClass.reference)
  | none => Except.error (GitError.mk "reference not found" ErrorClass.reference)

/-- `Repository::revparse_single`, restricted to the rev-spec shapes this
code can meet: a ref name, or a full hex object id. -/
def Repository.revparse_single (r : Repository) (spec : String) :
    Except GitError GitObject :=
  match r.lookupRef (RefName.plain spec) with
  | some rt =>
    match rt.target with
    | some oid => r.find_object oid
    | none => Except.error (GitError.mk "unresolved symbolic reference" ErrorClass.reference)
  | none => r.find_object spec

/-- `find_remote("origin")` followed by
`fetch(&["refs/heads/*:refs/remotes/origin/*"], options, None)`:
on success the remote-tracking namespace holds the fetched branch tips and
the object database gains the received pack; nothing outside the
remote-tracking namespace of the ref store is written. The transport
options are configuration of the external engine and are not modelled. -/
def Repository.fetchOrigin (r : Repository) : Except GitError Repository :=
  match r.origin with
  | none => Except.error (GitError.mk "remote origin does not exist" ErrorClass.config)
  | some rem =>
    match rem.fetchOutcome with
    | Except.error e => Except.error e
    | Except.ok d =>
      Except.ok { r with
        refs := r.refs.filter (fun p => ! RefName.isRemoteTracking p.1)
          ++ d.branches.map (fun b => (RefName.remoteTracking b.1, RefTarget.direct b.2)),
        objects := r.objects ++ d.newObjects,
        trees := r.trees ++ d.newTrees }

/-- Install a direct ref at `name` (used by `set_last_seen_reference`, where
`Reference::set_target` on an existing direct ref and the forced
`Repository::reference` creation both leave a direct ref at the given id). -/
def Repository.setRef (r : Repository) (name : RefName) (oid : Oid) : Repository :=
  { r with refs := (name, RefTarget.direct oid) :: r.refs.filter (fun p => p.1 != name) }

/-- The `Index` struct from `src/index.rs`. -/
structure Index where
  seen_ref_name : RefName
  repo : Repository

/-- `CloneOptions` from `src/index.rs`. -/
structure CloneOptions where
  repository_url : String

/-- `Index::last_seen_reference`. -/
def Index.last_seen_reference (i : Index) : Except GitError RefTarget :=
  i.repo.find_reference i.seen_ref_name

/-- The nested `into_tree` function of `Index::changes_from_objects`: a
commit-kind object contributes the tree it points to, any other object
contributes its own id, and `find_tree` is where a non-tree id "possibly
fails later" (the comment in the source). -/
def into_tree (repo : Repository) (obj : GitObject) : Except GitError GitTree :=
  repo.find_tree (match obj with
    | GitObject.commit _ treeId => treeId
    | o => o.id)

/-- The body of the `Diff::print` callback of `changes_from_objects`: skip a
line whose origin is not `+`, skip a line whose owning delta status is not
`Added`/`Modified`, then push the parsed record if the content parses. -/
def recordStep {α : Type} (parse : String → Option α) (res : List α)
    (diffline : PatchLine) : List α :=
  if diffline.origin != LINE_ADDED_INDICATOR then res
  else if !(match diffline.status with
            | DeltaStatus.added => true
            | DeltaStatus.modified => true
            | _ => false) then res
  else
    match parse diffline.content with
    | some c => res ++ [c]
    | none => res

/-- The whole line scan of `Diff::print` over the rendered patch, starting
from the empty `res` vector. -/
def extractRecords {α : Type} (parse : String → Option α)
    (lines : List PatchLine) : List α :=
  lines.foldl (recordStep parse) []

/-- `Index::changes_from_objects`, parameterised by the record parser
(`serde_json::from_slice` into `CrateVersion`; the record type is opaque to
this core, spec §3, so any parser `String → Option α` is admitted). -/
def changes_from_objects {α : Type} (parse : String → Option α)
    (repo : Repository) (fromObj toObj : GitObject) : Except GitError (List α) :=
  match into_tree repo fromObj with
  | Except.error e => Except.error e
  | Except.ok t1 =>
    match into_tree repo toObj with
    | Except.error e => Except.error e
    | Except.ok t2 =>
      match repo.diffPatch t1.id t2.id with
      | Except.error e => Except.error e
      | Except.ok lines => Except.ok (extractRecords parse lines)

/-- The eligibility-and-parse step of the claimed characterisation: a line
contributes exactly when its delta status is added or modified, its origin
marker is `+`, and its content parses. -/
def acceptedRecord {α : Type} (parse : String → Option α) (l : PatchLine) :
    Option α :=
  if (l.status = DeltaStatus.added ∨ l.status = DeltaStatus.modified)
      ∧ l.origin = LINE_ADDED_INDICATOR then
    parse l.content
  else none

lemma recordStep_eq {α : Type} (parse : String → Option α) (res : List α)
    (l : PatchLine) :
    recordStep parse res l = res ++ (acceptedRecord parse l).toList := by
  unfold recordStep acceptedRecord
  by_cases ho : l.origin = LINE_ADDED_INDICATOR
  · cases hs : l.status <;>
      simp [ho, hs] <;>
      cases parse l.content <;> simp
  · simp [ho]

lemma foldl_recordStep {α : Type} (parse : String → Option α) :
    ∀ (lines : List PatchLine) (acc : List α),
      lines.foldl (recordStep parse) acc
        = acc ++ lines.filterMap (acceptedRecord parse) := by
  intro lines
  induction lines with
  | nil => intro acc; simp
  | cons l ls ih =>
    intro acc
    rw [List.foldl_cons, ih, recordStep_eq]
    cases h : acceptedRecord parse l <;>
      simp [List.filterMap_cons, h]

lemma extractRecords_eq_filterMap {α : Type} (parse : String → Option α)
    (lines : List PatchLine) :
    extractRecords parse lines = lines.filterMap (acceptedRecord parse) := by
  unfold extractRecords
  rw [foldl_recordStep]
  simp

/-- The `from` endpoint computation of `peek_changes_with_options` (lines
111–118 of `src/index.rs`): the target of the last-seen reference; the
trailing `or_else` falls back to the empty-tree sentinel on any failure of
that chain, i.e. both when the reference does not exist and when it exists
without a direct target (`Oid::from_str` on the valid hex constant cannot
fail). -/
def Index.peekFrom (i : Index) : Oid :=
  match i.last_seen_reference with
  | Except.ok r =>
    match r.target with
    | some t => t
    | none => EMPTY_TREE_HASH
  | Except.error _ => EMPTY_TREE_HASH

/-- `Index::peek_changes_with_options`: compute `from` (before fetching),
fetch from `origin`, resolve `refs/remotes/origin/master` to the `to` id,
look both endpoint objects up and run `changes_from_objects`. The first
component of the result is the repository state after the call (the fetch
mutates the engine state even when a later step fails); the checkpoint ref
is never written. -/
def Index.peek_changes_with_options {α : Type} (parse : String → Option α)
    (i : Index) : Repository × Except GitError (List α × Oid) :=
  let fromOid := i.peekFrom
  match Repository.fetchOrigin i.repo with
  | Except.error e => (i.repo, Except.error e)
  | Except.ok repo2 =>
    (repo2,
      match repo2.refname_to_id originMaster with
      | Except.error e => Except.error e
      | Except.ok toOid =>
        match repo2.find_object fromOid with
        | Except.error e => Except.error e
        | Except.ok o1 =>
          match repo2.find_object toOid with
          | Except.error e => Except.error e
          | Except.ok o2 =>
            match changes_from_objects parse repo2 o1 o2 with
            | Except.error e => Except.error e
            | Except.ok cs => Except.ok (cs, toOid))

/-- `Index::peek_changes` (no transport options, which are not modelled). -/
def Index.peek_changes {α : Type} (parse : String → Option α) (i : Index) :
    Repository × Except GitError (List α × Oid) :=
  Index.peek_changes_with_options parse i

/-- `Index::set_last_seen_reference`: `set_target` on the found reference,
with an `or_else` that force-creates the reference; on the existing-direct
path and on the creation path alike the ref ends up direct at `to`. -/
def Index.set_last_seen_reference (i : Index) (toOid : Oid) : Index :=
  match i.last_seen_reference with
  | Except.ok (RefTarget.direct _) =>
    { i with repo := i.repo.setRef i.seen_ref_name toOid }
  | _ =>
    { i with repo := i.repo.setRef i.seen_ref_name toOid }

/-- `Index::fetch_changes_with_options`: peek, then persist the resolved
`to` as the checkpoint. -/
def Index.fetch_changes_with_options {α : Type} (parse : String → Option α)
    (i : Index) : Index × Except GitError (List α) :=
  match Index.peek_changes_with_options parse i with
  | (repo2, Except.error e) => ({ i with repo := repo2 }, Except.error e)
  | (repo2, Except.ok (changes, toOid)) =>
    (Index.set_last_seen_reference { i with repo := repo2 } toOid,
     Except.ok changes)

/-- `Index::fetch_changes` (no transport options). -/
def Index.fetch_changes {α : Type} (parse : String → Option α) (i : Index) :
    Index × Except GitError (List α) :=
  Index.fetch_changes_with_options parse i

/-- `Index::changes`: resolve both rev-specs independently, then run the
shared core. -/
def Index.changes {α : Type} (parse : String → Option α) (i : Index)
    (fromSpec toSpec : String) : Except GitError (List α) :=
  match i.repo.revparse_single fromSpec with
  | Except.error e => Except.error e
  | Except.ok o1 =>
    match i.repo.revparse_single toSpec with
    | Except.error e => Except.error e
    | Except.ok o2 => changes_from_objects parse i.repo o1 o2

/-- The filesystem/network world `from_path_or_cloned_with_options` acts
on: what `Repository::open(path)` yields at the given path, and what
`RepoBuilder::new().bare(true).clone(url, path)` would yield there. -/
structure BootstrapWorld where
  openResult : Except GitError Repository
  cloneResult : Except GitError Repository

/-- `Index::from_path_or_cloned_with_options`: open the repository; if the
open fails with an error of class `Repository` fall back to a bare clone
(and remember via `repo_did_exist` that the URL check is skipped); on any
other open failure return that error. When the repository did exist, its
`origin` remote URL must be obtainable and equal to the requested URL. -/
def Index.from_path_or_cloned_with_options (world : BootstrapWorld)
    (options : CloneOptions) : Except GitError Index :=
  match world.openResult with
  | Except.ok repo =>
    match repo.origin with
    | none => Except.error (GitError.mk "remote origin does not exist" ErrorClass.config)
    | some rem =>
      match rem.url with
      | none => Except.error (GitError.fromStr "did not obtain URL of remote named origin")
      | some actual =>
        if actual ≠ options.repository_url then
          Except.error (GitError.fromStr
            ("Actual origin remote url " ++ actual
              ++ " did not match desired one at " ++ options.repository_url))
        else Except.ok { seen_ref_name := LAST_SEEN_REFNAME, repo := repo }
  | Except.error err =>
    if err.cls = ErrorClass.repository then
      match world.cloneResult with
      | Except.ok repo => Except.ok { seen_ref_name := LAST_SEEN_REFNAME, repo := repo }
      | Except.error e => Except.error e
    else Except.error err

/-- `Index::from_path_or_cloned`: the official index URL as default. -/
def Index.from_path_or_cloned (world : BootstrapWorld) : Except GitError Index :=
  Index.from_path_or_cloned_with_options world
    { repository_url := INDEX_GIT_URL }

/-- Interface law of the external diff engine (spec §4.3/§8): diffing a
tree against itself renders an empty patch. -/
def Repository.selfDiffEmpty (r : Repository) : Prop :=
  ∀ t, r.diffPatch t t = Except.ok []

lemma lookupRef_fetch_frame (n : RefName) (h : RefName.isRemoteTracking n = false)
    (l : List (RefName × RefTarget)) (bs : List (String × Oid)) :
    List.find? (fun p => p.1 == n)
        (l.filter (fun p => ! RefName.isRemoteTracking p.1)
          ++ bs.map (fun b => (RefName.remoteTracking b.1, RefTarget.direct b.2)))
      = List.find? (fun p => p.1 == n) l := by
  rw [List.find?_append, List.find?_filter, List.find?_map]
  have h1 : (fun (a : RefName × RefTarget) =>
      decide ((! RefName.isRemoteTracking a.1) = true ∧ (a.1 == n) = true))
      = fun a => a.1 == n := by
    funext a
    by_cases ha : a.1 = n
    · rw [ha]; simp [h]
    · simp [ha]
  have h2 : List.find?
      ((fun p : RefName × RefTarget => p.1 == n)
        ∘ fun b : String × Oid => (RefName.remoteTracking b.1, RefTarget.direct b.2)) bs
      = none := by
    rw [List.find?_eq_none]
    intro b _ hb
    simp only [Function.comp_apply, beq_iff_eq] at hb
    rw [← hb] at h
    simp [RefName.isRemoteTracking] at h
  rw [h1, h2]
  simp

lemma find_reference_setRef (r : Repository) (n : RefName) (oid : Oid) :
    Repository.find_reference (r.setRef n oid) n = Except.ok (RefTarget.direct oid) := by
  simp [Repository.find_reference, Repository.lookupRef, Repository.setRef, List.find?]

/-- A sample record parser for the concrete witnesses: any content other
than the literal `bad` parses. -/
def sampleParse : String → Option String :=
  fun s => if s = "bad" then none else some s

/-- A parsable added line owned by an added delta. -/
def lineGood : PatchLine :=
  { status := DeltaStatus.added, origin := '+', content := "good" }

/-- An added line owned by a modified delta whose content does not parse. -/
def lineBad : PatchLine :=
  { status := DeltaStatus.modified, origin := '+', content := "bad" }

/-- A context line (origin is not `+`). -/
def lineCtx : PatchLine :=
  { status := DeltaStatus.added, origin := ' ', content := "ctx" }

/-- An added-origin line owned by a deleted delta. -/
def lineDel : PatchLine :=
  { status := DeltaStatus.deleted, origin := '+', content := "del" }

/-- The rendered patch of the sample diff. -/
def sampleLines : List PatchLine := [lineGood, lineCtx, lineDel, lineBad]

/-- A concrete diff engine: empty patch on equal trees, `sampleLines`
otherwise. -/
def sampleDiffFn : Oid → Oid → Except GitError (List PatchLine) :=
  fun a b => if a = b then Except.ok [] else Except.ok sampleLines

/-- A concrete fetch outcome delivering one branch tip. -/
def sampleFetch : FetchData :=
  { branches := [("master", "c2")], newObjects := [], newTrees := [] }

/-- A concrete `origin` remote configured at the official URL. -/
def sampleOrigin : OriginRemote :=
  { url := some INDEX_GIT_URL, fetchOutcome := Except.ok sampleFetch }

/-- A concrete repository: checkpoint at commit `c1`, two commits with
distinct trees, one blob, and the sample diff engine. -/
def sampleRepo : Repository :=
  { refs := [(LAST_SEEN_REFNAME, RefTarget.direct "c1")],
    objects := [GitObject.commit "c1" "t1", GitObject.commit "c2" "t2",
                GitObject.blob "b1"],
    trees := ["t1", "t2"],
    origin := some sampleOrigin,
    diffPatch := sampleDiffFn }

/-- The sample index over `sampleRepo`. -/
def sampleIndex : Index :=
  { seen_ref_name := LAST_SEEN_REFNAME, repo := sampleRepo }

/-- A repository whose last-seen ref exists but is symbolic (no direct
target). -/
def symbolicSeenRepo : Repository :=
  { refs := [(LAST_SEEN_REFNAME, RefTarget.symbolic (RefName.plain "refs/heads/master"))],
    objects := [],
    trees := [],
    origin := none,
    diffPatch := fun _ _ => Except.ok [] }

/-- The index over `symbolicSeenRepo`. -/
def symbolicSeenIndex : Index :=
  { seen_ref_name := LAST_SEEN_REFNAME, repo := symbolicSeenRepo }

/-- The sample index with another checkpoint name over the same repository
state. -/
def otherNameIndex : Index :=
  { seen_ref_name := RefName.plain "refs/heads/other", repo := sampleRepo }

lemma acceptedRecord_eq_none_of_parse {α : Type} (parse : String → Option α)
    (l : PatchLine) (hp : parse l.content = none) :
    acceptedRecord parse l = none := by
  unfold acceptedRecord
  by_cases hc : (l.status = DeltaStatus.added ∨ l.status = DeltaStatus.modified)
      ∧ l.origin = LINE_ADDED_INDICATOR
  · rw [if_pos hc]; exact hp
  · rw [if_neg hc]

/-- C1: a rendered patch line contributes a record to the output of
`changes_from_objects` exactly when its owning delta status is added or
modified, its origin marker is `+`, and its content parses; accepted
records appear in the diff engine's enumeration order with no sorting or
deduplication, as expressed by `filterMap` over the rendered lines. -/
theorem changes_from_objects_filter_order {α : Type} (parse : String → Option α)
    (r : Repository) (o1 o2 : GitObject) (t1 t2 : GitTree) (lines : List PatchLine)
    (h1 : into_tree r o1 = Except.ok t1) (h2 : into_tree r o2 = Except.ok t2)
    (h3 : r.diffPatch t1.id t2.id = Except.ok lines) :
    changes_from_objects parse r o1 o2
      = Except.ok (lines.filterMap (fun l =>
          if (l.status = DeltaStatus.added ∨ l.status = DeltaStatus.modified)
              ∧ l.origin = LINE_ADDED_INDICATOR
          then parse l.content else none)) := by
  simp only [changes_from_objects, h1, h2, h3, extractRecords_eq_filterMap]
  rfl

/-- Witness for C1 at a concrete diff containing an accepted line, a
context line, a deleted-delta line and an unparseable line. -/
theorem changes_from_objects_filter_order_witness :
    changes_from_objects sampleParse sampleRepo (GitObject.commit "c1" "t1")
        (GitObject.commit "c2" "t2")
      = Except.ok (sampleLines.filterMap (fun l =>
          if (l.status = DeltaStatus.added ∨ l.status = DeltaStatus.modified)
              ∧ l.origin = LINE_ADDED_INDICATOR
          then sampleParse l.content else none)) :=
  changes_from_objects_filter_order sampleParse sampleRepo
    (GitObject.commit "c1" "t1") (GitObject.commit "c2" "t2")
    (GitTree.mk "t1") (GitTree.mk "t2") sampleLines (by rfl) (by rfl) (by rfl)

/-- C2: a candidate line that fails to parse is silently excluded without
aborting the extraction (the scan covers all remaining lines), and an error
is returned only when the endpoint resolution or the underlying diff/patch
rendering itself fails. -/
theorem changes_from_objects_parse_resilient {α : Type} (parse : String → Option α)
    (r : Repository) (o1 o2 : GitObject) :
    (∀ t1 t2 xs l ys,
        into_tree r o1 = Except.ok t1 → into_tree r o2 = Except.ok t2 →
        r.diffPatch t1.id t2.id = Except.ok (xs ++ l :: ys) →
        parse l.content = none →
        changes_from_objects parse r o1 o2
          = Except.ok (extractRecords parse (xs ++ ys)))
    ∧ (∀ e, changes_from_objects parse r o1 o2 = Except.error e →
        into_tree r o1 = Except.error e
        ∨ into_tree r o2 = Except.error e
        ∨ ∃ t1 t2, into_tree r o1 = Except.ok t1 ∧ into_tree r o2 = Except.ok t2
            ∧ r.diffPatch t1.id t2.id = Except.error e) := by
  constructor
  · intro t1 t2 xs l ys h1 h2 h3 hp
    simp only [changes_from_objects, h1, h2, h3, extractRecords_eq_filterMap]
    simp [List.filterMap_append, List.filterMap_cons,
      acceptedRecord_eq_none_of_parse parse l hp]
  · intro e he
    unfold changes_from_objects at he
    split at he
    · cases he; left; assumption
    · split at he
      · cases he; right; left; assumption
      · split at he
        · cases he
          right; right
          exact ⟨_, _, by assumption, by assumption, by assumption⟩
        · cases he

/-- Witness for C2: the unparseable line `lineBad` is dropped and the call
still succeeds on the remaining lines. -/
theorem changes_from_objects_parse_resilient_witness :
    changes_from_objects sampleParse sampleRepo (GitObject.commit "c1" "t1")
        (GitObject.commit "c2" "t2")
      = Except.ok (extractRecords sampleParse [lineGood, lineCtx, lineDel]) :=
  (changes_from_objects_parse_resilient sampleParse sampleRepo
      (GitObject.commit "c1" "t1") (GitObject.commit "c2" "t2")).1
    (GitTree.mk "t1") (GitTree.mk "t2") [lineGood, lineCtx, lineDel] lineBad []
    (by rfl) (by rfl) (by rfl) (by rfl)

/-- C6: `changes` is deterministic in its two rev-spec arguments: its
result is a function of the repository snapshot and the two arguments
alone (in particular two calls with the same arguments over the same state
agree). -/
theorem changes_deterministic {α : Type} (parse : String → Option α)
    (i1 i2 : Index) (fromSpec toSpec : String) (h : i1.repo = i2.repo) :
    Index.changes parse i1 fromSpec toSpec = Index.changes parse i2 fromSpec toSpec := by
  unfold Index.changes
  rw [h]

/-- Witness for C6 at the sample state (the two indexes share the
repository snapshot but differ in checkpoint name). -/
theorem changes_deterministic_witness :
    Index.changes sampleParse sampleIndex "c1" "c2"
      = Index.changes sampleParse otherNameIndex "c1" "c2" :=
  changes_deterministic sampleParse sampleIndex otherNameIndex "c1" "c2" (by rfl)

/-- C7: two endpoint objects that resolve to the same tree produce a
successful, empty record sequence, by the diff-engine interface law that a
tree diffed against itself renders an empty patch. -/
theorem changes_from_objects_same_tree_empty {α : Type} (parse : String → Option α)
    (r : Repository) (o1 o2 : GitObject) (t : GitTree)
    (hlaw : r.selfDiffEmpty)
    (h1 : into_tree r o1 = Except.ok t) (h2 : into_tree r o2 = Except.ok t) :
    changes_from_objects parse r o1 o2 = Except.ok [] := by
  simp only [changes_from_objects, h1, h2, hlaw t.id]
  rfl

/-- Witness for C7: a commit and the tree it points to resolve to the same
tree in the sample repository. -/
theorem changes_from_objects_same_tree_empty_witness :
    changes_from_objects sampleParse sampleRepo (GitObject.commit "c1" "t1")
        (GitObject.tree "t1") = Except.ok [] :=
  changes_from_objects_same_tree_empty sampleParse sampleRepo
    (GitObject.commit "c1" "t1") (GitObject.tree "t1") (GitTree.mk "t1")
    (by intro t; simp [sampleRepo, sampleDiffFn]) (by rfl) (by rfl)

/-- C8: a commit endpoint is replaced by the tree it points to, any other
object contributes its own id directly, and a non-commit object whose id
does not name a tree fails only at the `find_tree` dereference. -/
theorem into_tree_resolution (r : Repository) (o : GitObject) :
    (∀ cid tid, o = GitObject.commit cid tid → into_tree r o = r.find_tree tid)
    ∧ (o.kind ≠ some ObjectType.commit → into_tree r o = r.find_tree o.id)
    ∧ (o.kind ≠ some ObjectType.commit → r.trees.contains o.id = false →
        into_tree r o = Except.error (GitError.mk "could not find tree" ErrorClass.odb)) := by
  refine ⟨?_, ?_, ?_⟩
  · intro cid tid h; rw [h]; rfl
  · intro hk
    cases o with
    | commit i t => simp [GitObject.kind] at hk
    | tree i => rfl
    | blob i => rfl
    | tag i => rfl
  · intro hk hc
    have h2 : into_tree r o = r.find_tree o.id := by
      cases o with
      | commit i t => simp [GitObject.kind] at hk
      | tree i => rfl
      | blob i => rfl
      | tag i => rfl
    rw [h2]
    unfold Repository.find_tree
    rw [hc]
    rfl

/-- Witness for C8: a blob endpoint whose id names no tree in the sample
repository surfaces an error exactly at the tree dereference. -/
theorem into_tree_resolution_witness :
    into_tree sampleRepo (GitObject.blob "b1")
      = Except.error (GitError.mk "could not find tree" ErrorClass.odb) :=
  (into_tree_resolution sampleRepo (GitObject.blob "b1")).2.2
    (by decide) (by rfl)

lemma last_seen_reference_set (i : Index) (toOid : Oid) :
    Index.last_seen_reference (i.set_last_seen_reference toOid)
      = Except.ok (RefTarget.direct toOid) := by
  unfold Index.set_last_seen_reference
  split <;> exact find_reference_setRef i.repo i.seen_ref_name toOid

/-- C4: `peek_changes_with_options` leaves every ref outside the
remote-tracking namespace written by the fetch — in particular the
checkpoint, whose default name `refs/heads/crates-index-diff_last-seen` is
such a ref — untouched, whether the call succeeds or fails. -/
theorem peek_changes_preserves_checkpoint {α : Type} (parse : String → Option α)
    (i : Index) (n : RefName) (h : RefName.isRemoteTracking n = false) :
    Repository.find_reference (Index.peek_changes_with_options parse i).1 n
      = Repository.find_reference i.repo n := by
  unfold Index.peek_changes_with_options
  cases ho : i.repo.origin with
  | none => simp [Repository.fetchOrigin, ho]
  | some rem =>
    cases hf : rem.fetchOutcome with
    | error e => simp [Repository.fetchOrigin, ho, hf]
    | ok d =>
      simp only [Repository.fetchOrigin, ho, hf]
      unfold Repository.find_reference Repository.lookupRef
      rw [lookupRef_fetch_frame n h]

/-- Witness for C4 at the sample state, where the fetch rewrites the
remote-tracking namespace but the checkpoint lookup is unchanged. -/
theorem peek_changes_preserves_checkpoint_witness :
    Repository.find_reference
        (Index.peek_changes_with_options sampleParse sampleIndex).1 LAST_SEEN_REFNAME
      = Repository.find_reference sampleIndex.repo LAST_SEEN_REFNAME :=
  peek_changes_preserves_checkpoint sampleParse sampleIndex LAST_SEEN_REFNAME (by rfl)

/-- C3: a successful `fetch_changes_with_options` returns exactly the
record sequence `peek_changes_with_options` returns, and afterwards the
last-seen reference exists as a direct reference at the `to` id peek
returned alongside those records; the final state is peek's state with the
resolved `to` persisted as checkpoint. -/
theorem fetch_changes_equiv_peek {α : Type} (parse : String → Option α)
    (i : Index) (cs : List α)
    (h : (Index.fetch_changes_with_options parse i).2 = Except.ok cs) :
    ∃ toOid repo2,
      Index.peek_changes_with_options parse i = (repo2, Except.ok (cs, toOid))
      ∧ (Index.fetch_changes_with_options parse i).1
          = Index.set_last_seen_reference { i with repo := repo2 } toOid
      ∧ Index.last_seen_reference (Index.fetch_changes_with_options parse i).1
          = Except.ok (RefTarget.direct toOid) := by
  rcases hp : Index.peek_changes_with_options parse i with ⟨repo2, res⟩
  cases res with
  | error e =>
    have h2 : (Index.fetch_changes_with_options parse i).2 = Except.error e := by
      rw [Index.fetch_changes_with_options, hp]
    rw [h2] at h
    simp at h
  | ok p =>
    rcases p with ⟨cs2, toOid⟩
    have h2 : (Index.fetch_changes_with_options parse i).2 = Except.ok cs2 := by
      rw [Index.fetch_changes_with_options, hp]
    rw [h2] at h
    injection h with hcs
    subst hcs
    refine ⟨toOid, repo2, rfl, ?_, ?_⟩
    · rw [Index.fetch_changes_with_options, hp]
    · rw [Index.fetch_changes_with_options, hp]
      exact last_seen_reference_set _ toOid

/-- Witness for C3 at the sample state: the fetched batch is the single
parsable record, and the checkpoint afterwards is direct at the fetched
tip. -/
theorem fetch_changes_equiv_peek_witness :
    ∃ toOid repo2,
      Index.peek_changes_with_options sampleParse sampleIndex
          = (repo2, Except.ok (["good"], toOid))
      ∧ (Index.fetch_changes_with_options sampleParse sampleIndex).1
          = Index.set_last_seen_reference { sampleIndex with repo := repo2 } toOid
      ∧ Index.last_seen_reference
            (Index.fetch_changes_with_options sampleParse sampleIndex).1
          = Except.ok (RefTarget.direct toOid) :=
  fetch_changes_equiv_peek sampleParse sampleIndex ["good"] (by rfl)

/-- C5 counterexample: a checkpoint reference that exists but is symbolic
(no direct target) is substituted by the empty-tree sentinel, so the
sentinel is not reserved to the no-checkpoint case: the claim's
characterisation fails at `symbolicSeenIndex`. -/
theorem peekFrom_symbolic_counterexample :
    Index.last_seen_reference symbolicSeenIndex
        = Except.ok (RefTarget.symbolic (RefName.plain "refs/heads/master"))
    ∧ Index.peekFrom symbolicSeenIndex = EMPTY_TREE_HASH
    ∧ ¬ (∀ i : Index, (∃ rt, Index.last_seen_reference i = Except.ok rt) →
        ∃ rt t, Index.last_seen_reference i = Except.ok rt
          ∧ RefTarget.target rt = some t ∧ Index.peekFrom i = t) := by
  refine ⟨by rfl, by rfl, ?_⟩
  intro hclaim
  obtain ⟨rt, t, hok, htgt, _⟩ := hclaim symbolicSeenIndex
    ⟨RefTarget.symbolic (RefName.plain "refs/heads/master"), by rfl⟩
  have hval : Index.last_seen_reference symbolicSeenIndex
      = Except.ok (RefTarget.symbolic (RefName.plain "refs/heads/master")) := by rfl
  rw [hval] at hok
  injection hok with hrt
  rw [← hrt] at htgt
  simp [RefTarget.target] at htgt

/-- C5 (amended): the `from` endpoint is the checkpoint's target when the
checkpoint exists and has a direct target; the empty-tree sentinel is used
when no checkpoint exists or when the existing checkpoint reference has no
direct target (a symbolic reference). -/
theorem peekFrom_characterisation (i : Index) :
    (∀ rt t, Index.last_seen_reference i = Except.ok rt →
        RefTarget.target rt = some t → Index.peekFrom i = t)
    ∧ (∀ rt, Index.last_seen_reference i = Except.ok rt →
        RefTarget.target rt = none → Index.peekFrom i = EMPTY_TREE_HASH)
    ∧ (∀ e, Index.last_seen_reference i = Except.error e →
        Index.peekFrom i = EMPTY_TREE_HASH) := by
  refine ⟨?_, ?_, ?_⟩
  · intro rt t h1 h2
    unfold Index.peekFrom
    rw [h1]
    simp only [h2]
  · intro rt h1 h2
    unfold Index.peekFrom
    rw [h1]
    simp only [h2]
  · intro e h1
    unfold Index.peekFrom
    rw [h1]

/-- Witness for the amended C5 at the sample state, whose checkpoint is
direct at `c1`. -/
theorem peekFrom_characterisation_witness :
    Index.peekFrom sampleIndex = "c1" :=
  (peekFrom_characterisation sampleIndex).1 (RefTarget.direct "c1") "c1"
    (by rfl) (by rfl)

/-- C9: when a repository exists at the path, bootstrap fails whenever the
`origin` URL cannot be obtained or differs from the requested URL, and a
success implies the URL matched and the opened repository is returned
unmodified. -/
theorem from_path_url_mismatch (world : BootstrapWorld) (options : CloneOptions)
    (repo : Repository) (hopen : world.openResult = Except.ok repo) :
    ((∀ rem, repo.origin = some rem → rem.url ≠ some options.repository_url) →
        ∃ e, Index.from_path_or_cloned_with_options world options = Except.error e)
    ∧ (∀ idx, Index.from_path_or_cloned_with_options world options = Except.ok idx →
        idx.repo = repo
        ∧ ∃ rem, repo.origin = some rem ∧ rem.url = some options.repository_url) := by
  constructor
  · intro hmis
    cases ho : repo.origin with
    | none =>
      simp only [Index.from_path_or_cloned_with_options, hopen, ho]
      exact ⟨_, rfl⟩
    | some rem =>
      cases hu : rem.url with
      | none =>
        simp only [Index.from_path_or_cloned_with_options, hopen, ho, hu]
        exact ⟨_, rfl⟩
      | some actual =>
        have hne : actual ≠ options.repository_url := by
          intro he
          exact hmis rem ho (by rw [hu, he])
        simp only [Index.from_path_or_cloned_with_options, hopen, ho, hu]
        rw [if_pos hne]
        exact ⟨_, rfl⟩
  · intro idx hok
    cases ho : repo.origin with
    | none =>
      simp only [Index.from_path_or_cloned_with_options, hopen, ho] at hok
      simp at hok
    | some rem =>
      cases hu : rem.url with
      | none =>
        simp only [Index.from_path_or_cloned_with_options, hopen, ho, hu] at hok
        simp [GitError.fromStr] at hok
      | some actual =>
        by_cases heq : actual = options.repository_url
        · simp only [Index.from_path_or_cloned_with_options, hopen, ho, hu] at hok
          rw [if_neg (fun hc => hc heq)] at hok
          injection hok with hidx
          refine ⟨?_, rem, rfl, ?_⟩
          · rw [← hidx]
          · rw [hu, heq]
        · simp only [Index.from_path_or_cloned_with_options, hopen, ho, hu] at hok
          rw [if_pos heq] at hok
          simp [GitError.fromStr] at hok

/-- Witness for C9: an existing sample repository opened with a different
requested URL is rejected. -/
theorem from_path_url_mismatch_witness :
    ∃ e, Index.from_path_or_cloned_with_options
        { openResult := Except.ok sampleRepo,
          cloneResult := Except.error (GitError.fromStr "unused") }
        { repository_url := "https://example.com/other" } = Except.error e :=
  (from_path_url_mismatch
      { openResult := Except.ok sampleRepo,
        cloneResult := Except.error (GitError.fromStr "unused") }
      { repository_url := "https://example.com/other" } sampleRepo (by rfl)).1
    (by
      intro rem h hurl
      have h2 : some sampleOrigin = some rem := h
      injection h2 with h3
      rw [← h3] at hurl
      exact absurd hurl (by decide))

/-- C10: after an open failure, a clone is attempted only for an error of
the `Repository` class; any other class is returned to the caller
unchanged and the clone outcome is never consulted. -/
theorem from_path_clone_gate (world : BootstrapWorld) (options : CloneOptions)
    (err : GitError) (hopen : world.openResult = Except.error err) :
    (err.cls ≠ ErrorClass.repository →
        Index.from_path_or_cloned_with_options world options = Except.error err)
    ∧ (err.cls = ErrorClass.repository →
        Index.from_path_or_cloned_with_options world options
          = match world.cloneResult with
            | Except.ok repo => Except.ok { seen_ref_name := LAST_SEEN_REFNAME, repo := repo }
            | Except.error e => Except.error e) := by
  constructor
  · intro hcls
    simp only [Index.from_path_or_cloned_with_options, hopen]
    rw [if_neg hcls]
  · intro hcls
    simp only [Index.from_path_or_cloned_with_options, hopen]
    rw [if_pos hcls]

/-- Witness for C10: an open failure of class `Os` is surfaced unchanged
even though a clone would have succeeded. -/
theorem from_path_clone_gate_witness :
    Index.from_path_or_cloned_with_options
        { openResult := Except.error (GitError.mk "could not lock" ErrorClass.os),
          cloneResult := Except.ok sampleRepo }
        { repository_url := INDEX_GIT_URL }
      = Except.error (GitError.mk "could not lock" ErrorClass.os) :=
  (from_path_clone_gate
      { openResult := Except.error (GitError.mk "could not lock" ErrorClass.os),
        cloneResult := Except.ok sampleRepo }
      { repository_url := INDEX_GIT_URL }
      (GitError.mk "could not lock" ErrorClass.os) (by rfl)).1 (by decide)
